import Mathlib

/-!
Verification of the remote-resolution core of the `cli` repository
(`src/context/context.go`): `ResolveRemotesToRepos` and the derived queries
`BaseRepo`, `HeadRepo`, `RemoteForRepo` on `ResolvedRemotes`.

Go code is shallowly embedded: slices become `List`, nil-able pointers become
`Option`, `(value, error)` returns become `Except` (or a pair with an
`Option` error when a partial value is returned alongside the error), and a
Go runtime panic from an out-of-range slice index is modelled as the distinct
outcome `CtxError.indexOutOfRange`.

Collaborators that live outside `src/context/context.go` (the `ghrepo`
helpers, the `Remotes` sort order from `remotes.go`, and the `api` repository
metadata) are modelled from the spec; each such definition carries a
`Modelled from the spec:` doc comment.
-/

/-- A repository identity: an (owner, name) pair.
Modelled from the spec: "Repository candidate: the (owner, repoName) pair
derived from a Remote or from an override string of the form owner/name"
(the `ghrepo` package is not under `src/`). -/
structure RepoId where
  owner : String
  name : String
  deriving DecidableEq, Repr

/-- Modelled from the spec: case-insensitive string equality, standing for
Go's `strings.EqualFold` used by `ghrepo.IsSame` (written as character-wise
lowercasing so that it evaluates by definitional unfolding). -/
def eqFold (a b : String) : Bool :=
  String.mk (a.data.map Char.toLower) == String.mk (b.data.map Char.toLower)

/-- Modelled from the spec: `ghrepo.IsSame` — "case-insensitive owner+name
equality" of two repository identities. -/
def isSame (a b : RepoId) : Bool :=
  eqFold a.owner b.owner && eqFold a.name b.name

/-- Modelled from the spec: `ghrepo.FullName`, the "owner/name" rendering of a
repository identity (used in the `RepoNotFound` error message). -/
def fullName (r : RepoId) : String :=
  r.owner ++ "/" ++ r.name

/-- Split a character list at its first slash, when it has one. -/
def splitFirstSlash : List Char → Option (List Char × List Char)
  | [] => none
  | c :: rest =>
    if c = '/' then some ([], rest)
    else
      match splitFirstSlash rest with
      | none => none
      | some (pre, post) => some (c :: pre, post)

/-- Modelled from the spec: `ghrepo.FromFullName` — parse an override string
"of the form owner/name" at the first slash (everything after that slash is
the name, as with Go's `strings.SplitN(s, "/", 2)`); a string without a
slash, including the empty string, yields the zero identity. -/
def fromFullName (nwo : String) : RepoId :=
  match splitFirstSlash nwo.data with
  | none => { owner := "", name := "" }
  | some (pre, post) => { owner := String.mk pre, name := String.mk post }

/-- A git remote: a named local pointer to a repository, as stored in the
Remote Set. Modelled from the spec data model ("Remote: `name`, `owner`,
`repoName`"; the `Remote` struct itself lives in `remotes.go`, not under
`src/`). -/
structure Remote where
  name : String
  owner : String
  repoName : String
  deriving DecidableEq, Repr

/-- The repository identity a remote literally points to
(`ghrepo.Interface` view of a `Remote`). -/
def Remote.repoId (r : Remote) : RepoId :=
  { owner := r.owner, name := r.repoName }

/-- Repository metadata returned by the network batch-lookup collaborator.
Modelled from the spec: "identity (owner, name), a nullable `parent` (set iff
the repository is a fork, pointing to the upstream repository's metadata),
and a boolean capability `canPush`". Following the spec's design note that it
is "unspecified if parent can be null while `IsFork()` is true", fork-ness is
an attribute of its own rather than derived from `parent`. (`api.Repository`
is not under `src/`.) -/
inductive Repository : Type where
  | mk (owner : String) (name : String) (isFork : Bool)
      (parent : Option Repository) (viewerCanPush : Bool) : Repository

def Repository.owner : Repository → String
  | .mk o _ _ _ _ => o

def Repository.name : Repository → String
  | .mk _ n _ _ _ => n

/-- Modelled from the spec: `api.Repository.IsFork()`. -/
def Repository.IsFork : Repository → Bool
  | .mk _ _ f _ _ => f

def Repository.parent : Repository → Option Repository
  | .mk _ _ _ p _ => p

/-- Modelled from the spec: `api.Repository.ViewerCanPush()` — the `canPush`
capability. -/
def Repository.ViewerCanPush : Repository → Bool
  | .mk _ _ _ _ c => c

/-- The repository identity of a metadata entry (`ghrepo.Interface` view). -/
def Repository.repoId (r : Repository) : RepoId :=
  { owner := r.owner, name := r.name }

/-- The errors the queries on a `ResolvedRemotes` can produce, one
constructor per distinct Go error:
`notFound` = `errors.New("not found")`,
`repoNotFound s` = `fmt.Errorf("failed looking up information about the '%s'
repository", s)`,
`noPushAccess` = `errors.New("none of the repositories have push access")`,
and `indexOutOfRange`, which models the Go runtime panic raised by an
out-of-range slice index (not an `error` value in Go: the program crashes). -/
inductive CtxError : Type where
  | notFound : CtxError
  | repoNotFound (fullName : String) : CtxError
  | noPushAccess : CtxError
  | indexOutOfRange : CtxError
  deriving DecidableEq, Repr

/-- `const maxRemotesForLookup = 5` (context.go line 29). -/
def maxRemotesForLookup : Nat := 5

/-- Modelled from the spec: "sortKey(remote): returns the index of
`remote.name` in the ordered preference list [upstream, github, origin];
names not present map to index = length of that list". The `Remotes` sort
implementation lives in `remotes.go`, not under `src/`. -/
def sortKey (name : String) : Nat :=
  if name == "upstream" then 0
  else if name == "github" then 1
  else if name == "origin" then 2
  else 3

/-- Modelled from the spec: `sort.Stable(remotes)` — the stable sort of the
Remote Set by `sortKey`, written as a four-bucket stable counting sort
(remotes of equal key keep their relative discovery order, which is exactly
what any stable sort by this key produces). -/
def sortedRemotes (remotes : List Remote) : List Remote :=
  remotes.filter (fun r => sortKey r.name == 0)
    ++ remotes.filter (fun r => sortKey r.name == 1)
    ++ remotes.filter (fun r => sortKey r.name == 2)
    ++ remotes.filter (fun r => sortKey r.name == 3)

/-- The truncated candidate remotes: `remotes[:lenRemotesForLookup]`
(context.go lines 33-36 and 42), applied to the already-sorted set. -/
def cappedRemotes (remotes : List Remote) : List Remote :=
  let sorted := sortedRemotes remotes
  let lenRemotesForLookup :=
    if sorted.length > maxRemotesForLookup then maxRemotesForLookup
    else sorted.length
  sorted.take lenRemotesForLookup

/-- The candidate list `repos` that `ResolveRemotesToRepos` submits to the
batched lookup (context.go lines 38-52), projected to repository identities
(the lookup collaborator consumes only owner+name of each candidate):
the capped remotes, plus the parsed override appended when the override is
present and matches no capped remote. -/
def lookupCandidates (remotes : List Remote) (base : String) : List RepoId :=
  let baseOverride := fromFullName base
  let capped := cappedRemotes remotes
  let foundBaseOverride := capped.any (fun r => isSame r.repoId baseOverride)
  let repos := capped.map Remote.repoId
  if base != "" && !foundBaseOverride then repos ++ [baseOverride]
  else repos

/-- The `ResolvedRemotes` struct (context.go lines 66-70). `network` is the
`Repositories` slice of the `api.RepoNetworkResult`, one nullable entry per
candidate submitted to the lookup. -/
structure ResolvedRemotes where
  baseOverride : Option RepoId
  remotes : List Remote
  network : List (Option Repository)

/-- `ResolveRemotesToRepos` (context.go lines 31-64). The network
batch-lookup collaborator `api.RepoNetwork` is external to the core and is
passed as the function `lookup`; an `Except.error` from it models the batched
call failing outright. As in Go, the partially-constructed result (sorted
remotes, override, zero-value network) is returned alongside the error. -/
def ResolveRemotesToRepos (remotes : List Remote) (base : String)
    (lookup : List RepoId → Except String (List (Option Repository))) :
    ResolvedRemotes × Option String :=
  let sorted := sortedRemotes remotes
  let result : ResolvedRemotes :=
    { baseOverride := if base != "" then some (fromFullName base) else none,
      remotes := sorted,
      network := [] }
  match lookup (lookupCandidates remotes base) with
  | .error e => (result, some e)
  | .ok networkResult => ({ result with network := networkResult }, none)

/-- The override branch of `BaseRepo` (context.go lines 75-83): first non-nil
metadata entry whose identity `IsSame` the override, else the
`RepoNotFound` error naming the override. -/
def baseRepoOverrideScan (ov : RepoId) :
    List (Option Repository) → Except CtxError (Option Repository)
  | [] => .error (.repoNotFound (fullName ov))
  | none :: rest => baseRepoOverrideScan ov rest
  | some repo :: rest =>
    if isSame repo.repoId ov then .ok (some repo)
    else baseRepoOverrideScan ov rest

/-- The no-override branch of `BaseRepo` (context.go lines 85-95): first
non-nil metadata entry; a fork yields its parent (which may be nil),
otherwise the entry itself; `notFound` when every entry is nil. -/
def baseRepoScan : List (Option Repository) → Except CtxError (Option Repository)
  | [] => .error .notFound
  | none :: rest => baseRepoScan rest
  | some repo :: _ =>
    if repo.IsFork then .ok repo.parent else .ok (some repo)

/-- `ResolvedRemotes.BaseRepo` (context.go lines 74-96). The Go return type
`(*api.Repository, error)` becomes `Except CtxError (Option Repository)`:
`.ok (some _)` is a non-nil repository with nil error, `.ok none` is a nil
repository with nil error. -/
def ResolvedRemotes.BaseRepo (r : ResolvedRemotes) :
    Except CtxError (Option Repository) :=
  match r.baseOverride with
  | some ov => baseRepoOverrideScan ov r.network
  | none => baseRepoScan r.network

/-- The scan inside `HeadRepo` (context.go lines 100-105): first non-nil
metadata entry with push access, else `noPushAccess`. -/
def headRepoScan : List (Option Repository) → Except CtxError (Option Repository)
  | [] => .error .noPushAccess
  | none :: rest => headRepoScan rest
  | some repo :: rest =>
    if repo.ViewerCanPush then .ok (some repo) else headRepoScan rest

/-- `ResolvedRemotes.HeadRepo` (context.go lines 99-106). -/
def ResolvedRemotes.HeadRepo (r : ResolvedRemotes) :
    Except CtxError (Option Repository) :=
  headRepoScan r.network

/-- The loop of `RemoteForRepo` (context.go lines 110-117): walk the stored
remotes with index `i`; a remote matches when its literal identity `IsSame`
the target or (short-circuit, only evaluated otherwise) the metadata entry
`repositories[i]` is non-nil and `IsSame` the target. Go's
`r.network.Repositories[i]` panics when `i` is out of range; that outcome is
`CtxError.indexOutOfRange` here. -/
def remoteForRepoLoop (repositories : List (Option Repository)) (target : RepoId) :
    List Remote → Nat → Except CtxError Remote
  | [], _ => .error .notFound
  | remote :: rest, i =>
    if isSame remote.repoId target then .ok remote
    else
      match repositories[i]? with
      | none => .error .indexOutOfRange
      | some none => remoteForRepoLoop repositories target rest (i + 1)
      | some (some rep) =>
        if isSame rep.repoId target then .ok remote
        else remoteForRepoLoop repositories target rest (i + 1)

/-- `ResolvedRemotes.RemoteForRepo` (context.go lines 109-119). -/
def ResolvedRemotes.RemoteForRepo (r : ResolvedRemotes) (target : RepoId) :
    Except CtxError Remote :=
  remoteForRepoLoop r.network target r.remotes 0

/-!
Specification-side helper functions. Each restates, directly over the data,
which entry a query scan is supposed to select; the lemmas below connect the
embedded loops to them.
-/

/-- The override-matching view of one metadata entry: the entry itself when it
is non-nil and its identity `IsSame` the override, else nothing. -/
def overrideMatch (ov : RepoId) : Option Repository → Option Repository
  | some repo => if isSame repo.repoId ov then some repo else none
  | none => none

/-- The first non-nil metadata entry whose identity matches the override. -/
def firstOverrideMatch (ov : RepoId) (l : List (Option Repository)) :
    Option Repository :=
  l.findSome? (overrideMatch ov)

/-- The pushable view of one metadata entry: the entry itself when it is
non-nil and grants push access, else nothing. -/
def pushableEntry : Option Repository → Option Repository
  | some repo => if repo.ViewerCanPush then some repo else none
  | none => none

/-- The first non-nil metadata entry with push access. -/
def firstPushable (l : List (Option Repository)) : Option Repository :=
  l.findSome? pushableEntry

/-- Whether a remote paired with its aligned metadata entry matches the
target: by the remote's own literal identity, or by the metadata entry's
identity when the entry is non-nil. -/
def remoteMatches (target : RepoId) (p : Remote × Option Repository) : Bool :=
  isSame p.1.repoId target ||
    (match p.2 with
     | some rep => isSame rep.repoId target
     | none => false)

/-- When the first non-nil entry of the metadata array is `e`, the
no-override scan returns `e`'s parent if `e` is a fork and `e` itself
otherwise. -/
theorem baseRepoScan_firstSome (l : List (Option Repository)) (e : Repository)
    (h : l.findSome? id = some e) :
    baseRepoScan l =
      if e.IsFork then Except.ok e.parent else Except.ok (some e) := by
  induction l with
  | nil => simp [List.findSome?] at h
  | cons hd tl ih =>
    cases hd with
    | none =>
      rw [List.findSome?_cons] at h
      simpa [baseRepoScan] using ih h
    | some repo =>
      rw [List.findSome?_cons] at h
      simp only [id] at h
      cases h
      simp [baseRepoScan]

/-- The override scan returns the first matching non-nil entry, or the
`RepoNotFound` error naming the override when there is none. -/
theorem baseRepoOverrideScan_eq (ov : RepoId) (l : List (Option Repository)) :
    baseRepoOverrideScan ov l =
      match firstOverrideMatch ov l with
      | some repo => Except.ok (some repo)
      | none => Except.error (CtxError.repoNotFound (fullName ov)) := by
  induction l with
  | nil => rfl
  | cons hd tl ih =>
    cases hd with
    | none =>
      simpa [baseRepoOverrideScan, firstOverrideMatch, List.findSome?_cons,
        overrideMatch] using ih
    | some repo =>
      by_cases hm : isSame repo.repoId ov
      · simp [baseRepoOverrideScan, firstOverrideMatch, List.findSome?_cons,
          overrideMatch, hm]
      · simpa [baseRepoOverrideScan, firstOverrideMatch, List.findSome?_cons,
          overrideMatch, hm] using ih

/-- The head scan returns the first non-nil entry with push access, or the
`NoPushAccess` error when there is none. -/
theorem headRepoScan_eq (l : List (Option Repository)) :
    headRepoScan l =
      match firstPushable l with
      | some repo => Except.ok (some repo)
      | none => Except.error CtxError.noPushAccess := by
  induction l with
  | nil => rfl
  | cons hd tl ih =>
    cases hd with
    | none =>
      simpa [headRepoScan, firstPushable, List.findSome?_cons,
        pushableEntry] using ih
    | some repo =>
      by_cases hp : repo.ViewerCanPush
      · simp [headRepoScan, firstPushable, List.findSome?_cons,
          pushableEntry, hp]
      · simpa [headRepoScan, firstPushable, List.findSome?_cons,
          pushableEntry, hp] using ih

/-- As long as every remaining remote has an aligned metadata entry, the
`RemoteForRepo` loop starting at index `i` returns the first remaining remote
matching the target (literally or through its metadata entry), or the
`notFound` error. -/
theorem remoteForRepoLoop_eq (repositories : List (Option Repository))
    (target : RepoId) (rems : List Remote) (i : Nat)
    (h : i + rems.length ≤ repositories.length) :
    remoteForRepoLoop repositories target rems i =
      match (rems.zip (repositories.drop i)).find? (remoteMatches target) with
      | some p => Except.ok p.1
      | none => Except.error CtxError.notFound := by
  induction rems generalizing i with
  | nil => simp [remoteForRepoLoop]
  | cons remote rest ih =>
    have hi : i < repositories.length := by
      simp only [List.length_cons] at h
      omega
    rw [List.drop_eq_getElem_cons hi, List.zip_cons_cons, List.find?_cons]
    by_cases hlit : isSame remote.repoId target
    · have hm : remoteMatches target (remote, repositories[i]) = true := by
        simp [remoteMatches, hlit]
      rw [hm]
      simp [remoteForRepoLoop, hlit]
    · have hrec := ih (i + 1) (by simp only [List.length_cons] at h; omega)
      cases hentry : repositories[i] with
      | none =>
        have hm : remoteMatches target (remote, (none : Option Repository))
            = false := by
          simp [remoteMatches, hlit]
        rw [hm]
        simp only [remoteForRepoLoop, List.getElem?_eq_getElem hi, hentry,
          hlit, if_false, Bool.false_eq_true]
        exact hrec
      | some rep =>
        by_cases hmeta : isSame rep.repoId target
        · have hm : remoteMatches target (remote, some rep) = true := by
            simp [remoteMatches, hmeta]
          rw [hm]
          simp [remoteForRepoLoop, hlit, List.getElem?_eq_getElem hi, hentry,
            hmeta]
        · have hm : remoteMatches target (remote, some rep) = false := by
            simp [remoteMatches, hlit, hmeta]
          rw [hm]
          simp only [remoteForRepoLoop, List.getElem?_eq_getElem hi, hentry,
            hlit, hmeta, if_false, Bool.false_eq_true]
          exact hrec

/-- For every `name`, `sortKey` takes one of the four bucket values. -/
theorem sortKey_cases (name : String) :
    sortKey name = 0 ∨ sortKey name = 1 ∨ sortKey name = 2 ∨
      sortKey name = 3 := by
  unfold sortKey
  by_cases h1 : name == "upstream"
  · simp [h1]
  · by_cases h2 : name == "github"
    · simp [h1, h2]
    · by_cases h3 : name == "origin" <;> simp [h1, h2, h3]

/-- The stable sort neither drops nor duplicates remotes. -/
theorem sortedRemotes_length (l : List Remote) :
    (sortedRemotes l).length = l.length := by
  induction l with
  | nil => rfl
  | cons x xs ih =>
    simp only [sortedRemotes, List.length_append, List.length_cons] at ih ⊢
    rcases sortKey_cases x.name with h | h | h | h <;>
      simp [List.filter_cons, h] <;> omega

/-!
Concrete inputs used by the witnesses and the counterexample.
-/

/-- A lookup collaborator that resolves every candidate to a null entry
(honouring the §6 contract: one slot per candidate). -/
def lookupAllNone : List RepoId → Except String (List (Option Repository)) :=
  fun candidates => Except.ok (candidates.map (fun _ => none))

/-- A lookup collaborator whose batched call fails outright. -/
def failingLookup : List RepoId → Except String (List (Option Repository)) :=
  fun _ => Except.error "transport failure"

/-- A lookup collaborator answering with the empty metadata array (the
contract answer to the empty candidate list). -/
def emptyLookup : List RepoId → Except String (List (Option Repository)) :=
  fun _ => Except.ok []

/-- Six remotes, none with a preference name, no two alike. -/
def sixRemotes : List Remote :=
  [⟨"r1", "o1", "p1"⟩, ⟨"r2", "o2", "p2"⟩, ⟨"r3", "o3", "p3"⟩,
   ⟨"r4", "o4", "p4"⟩, ⟨"r5", "o5", "p5"⟩, ⟨"r6", "o6", "p6"⟩]

def remOrigin : Remote := ⟨"origin", "foo", "bar"⟩

/-- The resolution of an empty Remote Set with no override. -/
def emptyResolved : ResolvedRemotes :=
  (ResolveRemotesToRepos [] "" emptyLookup).1

/-- The resolution of the six-remote set with no override: its metadata
array has only 5 entries while 6 remotes are stored. -/
def crashResolved : ResolvedRemotes :=
  (ResolveRemotesToRepos sixRemotes "" lookupAllNone).1

def missingTarget : RepoId := ⟨"zzz", "zzz"⟩

def parentRepo : Repository := .mk "parentOwner" "parentName" false none true

def forkRepo : Repository :=
  .mk "forkOwner" "forkName" true (some parentRepo) true

def orphanFork : Repository := .mk "forkOwner" "forkName" true none true

def plainRepo : Repository := .mk "plainOwner" "plainName" false none false

def repoA : Repository := .mk "ownerA" "repoA" false none false

def repoB : Repository := .mk "ownerB" "repoB" false none true

def repoC : Repository := .mk "ownerC" "repoC" false none true

def rrFork : ResolvedRemotes := ⟨none, [], [none, some forkRepo]⟩

def rrOrphan : ResolvedRemotes := ⟨none, [], [some orphanFork]⟩

def ovId : RepoId := ⟨"ForkOwner", "ForkName"⟩

def rrOverride : ResolvedRemotes :=
  ⟨some ovId, [], [some plainRepo, some forkRepo]⟩

def rrHead : ResolvedRemotes :=
  ⟨none, [], [some repoA, some repoB, some repoC]⟩

def remOld : Remote := ⟨"origin", "old", "name"⟩

def repoNew : Repository := .mk "new" "name" false none true

def rrRedirect : ResolvedRemotes := ⟨none, [remOld], [some repoNew]⟩

def targetNew : RepoId := ⟨"new", "name"⟩

/-!
The claims.
-/

/-- C2: for a Remote Set of size greater than 5 and no override, the
candidate list that `ResolveRemotesToRepos` submits to the batched lookup
(`lookupCandidates`, by construction of `ResolveRemotesToRepos`) is exactly
the first 5 remotes of the stably sorted set, in sorted order (projected to
their repository identities, which is what the lookup consumes), and has
exactly 5 entries. -/
theorem lookup_candidates_cap (remotes : List Remote)
    (h : maxRemotesForLookup < remotes.length) :
    lookupCandidates remotes "" =
      ((sortedRemotes remotes).take maxRemotesForLookup).map Remote.repoId ∧
    (lookupCandidates remotes "").length = maxRemotesForLookup := by
  have hlen := sortedRemotes_length remotes
  have hgt : (sortedRemotes remotes).length > maxRemotesForLookup := by
    omega
  have hcap : cappedRemotes remotes
      = (sortedRemotes remotes).take maxRemotesForLookup := by
    simp [cappedRemotes, hgt]
  have hcand : lookupCandidates remotes "" =
      ((sortedRemotes remotes).take maxRemotesForLookup).map Remote.repoId := by
    simp [lookupCandidates, hcap]
  refine ⟨hcand, ?_⟩
  rw [hcand]
  simp only [List.length_map, List.length_take]
  simp only [maxRemotesForLookup] at h ⊢
  omega

/-- Witness for C2 at the six concrete remotes. -/
theorem lookup_candidates_cap_witness :
    maxRemotesForLookup < sixRemotes.length ∧
    (lookupCandidates sixRemotes "" =
      ((sortedRemotes sixRemotes).take maxRemotesForLookup).map Remote.repoId ∧
     (lookupCandidates sixRemotes "").length = maxRemotesForLookup) :=
  ⟨by decide, lookup_candidates_cap sixRemotes (by decide)⟩

/-- C3: with a non-empty override, the candidate list is the capped remote
list with the override appended at the end when the override identity
matches (case-insensitively) no capped remote, and exactly the capped remote
list, nothing added, when it matches one. -/
theorem lookup_candidates_override (remotes : List Remote) (base : String)
    (hbase : base ≠ "") :
    ((cappedRemotes remotes).any
        (fun r => isSame r.repoId (fromFullName base)) = false →
      lookupCandidates remotes base =
        (cappedRemotes remotes).map Remote.repoId ++ [fromFullName base]) ∧
    ((cappedRemotes remotes).any
        (fun r => isSame r.repoId (fromFullName base)) = true →
      lookupCandidates remotes base =
        (cappedRemotes remotes).map Remote.repoId) := by
  have hb : (base != "") = true := bne_iff_ne.mpr hbase
  constructor <;> intro hfound <;> simp [lookupCandidates, hb, hfound]

/-- Witness for C3: override `x/y` matches no capped remote and is appended
at the end. -/
theorem lookup_candidates_override_witness :
    ("x/y" ≠ "") ∧
    (cappedRemotes [remOrigin]).any
      (fun r => isSame r.repoId (fromFullName "x/y")) = false ∧
    lookupCandidates [remOrigin] "x/y" =
      (cappedRemotes [remOrigin]).map Remote.repoId ++ [fromFullName "x/y"] :=
  ⟨by decide, by rfl,
    (lookup_candidates_override [remOrigin] "x/y" (by decide)).1 (by rfl)⟩

/-- C4: with no override, when the first non-null metadata entry `e` is a
fork with parent `p`, `BaseRepo` returns `p` and not the fork itself; when
`e` is not a fork, `BaseRepo` returns `e` itself. -/
theorem baseRepo_fork_rule (rr : ResolvedRemotes) (e : Repository)
    (hov : rr.baseOverride = none)
    (hfirst : rr.network.findSome? id = some e) :
    (∀ p, e.IsFork = true → e.parent = some p →
      rr.BaseRepo = Except.ok (some p)) ∧
    (e.IsFork = false → rr.BaseRepo = Except.ok (some e)) := by
  have hb : rr.BaseRepo = baseRepoScan rr.network := by
    simp [ResolvedRemotes.BaseRepo, hov]
  have hscan := baseRepoScan_firstSome rr.network e hfirst
  constructor
  · intro p hf hp
    rw [hb, hscan]
    simp [hf, hp]
  · intro hf
    rw [hb, hscan]
    simp [hf]

/-- Witness for C4: the first non-null entry is a fork; `BaseRepo` returns
its parent. -/
theorem baseRepo_fork_rule_witness :
    rrFork.baseOverride = none ∧
    rrFork.network.findSome? id = some forkRepo ∧
    rrFork.BaseRepo = Except.ok (some parentRepo) :=
  ⟨rfl, rfl,
    (baseRepo_fork_rule rrFork forkRepo rfl rfl).1 parentRepo rfl rfl⟩

/-- C10: with no override, when the first non-null metadata entry is a fork
whose parent is null, `BaseRepo` returns a null repository with no error
(Go: `nil, nil`) instead of failing with `NotFound`. -/
theorem baseRepo_orphan_fork (rr : ResolvedRemotes) (e : Repository)
    (hov : rr.baseOverride = none)
    (hfirst : rr.network.findSome? id = some e)
    (hfork : e.IsFork = true) (hpar : e.parent = none) :
    rr.BaseRepo = Except.ok none := by
  have hb : rr.BaseRepo = baseRepoScan rr.network := by
    simp [ResolvedRemotes.BaseRepo, hov]
  rw [hb, baseRepoScan_firstSome rr.network e hfirst]
  simp [hfork, hpar]

/-- Witness for C10 at a concrete orphan fork. -/
theorem baseRepo_orphan_fork_witness :
    rrOrphan.baseOverride = none ∧
    rrOrphan.network.findSome? id = some orphanFork ∧
    orphanFork.IsFork = true ∧ orphanFork.parent = none ∧
    rrOrphan.BaseRepo = Except.ok none :=
  ⟨rfl, rfl, rfl, rfl,
    baseRepo_orphan_fork rrOrphan orphanFork rfl rfl rfl rfl⟩

/-- C5: with an override, `BaseRepo` returns the first non-null metadata
entry whose identity matches the override case-insensitively — even when
that entry is a fork, with no fork-to-parent substitution — and fails with
the `RepoNotFound` error naming the override's full name when no non-null
entry matches. -/
theorem baseRepo_override (rr : ResolvedRemotes) (ov : RepoId)
    (hov : rr.baseOverride = some ov) :
    (∀ repo, firstOverrideMatch ov rr.network = some repo →
      rr.BaseRepo = Except.ok (some repo)) ∧
    (firstOverrideMatch ov rr.network = none →
      rr.BaseRepo = Except.error (CtxError.repoNotFound (fullName ov))) := by
  have hb : rr.BaseRepo = baseRepoOverrideScan ov rr.network := by
    simp [ResolvedRemotes.BaseRepo, hov]
  rw [hb, baseRepoOverrideScan_eq]
  constructor
  · intro repo hm
    rw [hm]
  · intro hm
    rw [hm]

/-- Witness for C5: the override (in different case) matches a fork entry;
`BaseRepo` returns the fork itself, not its parent. -/
theorem baseRepo_override_witness :
    rrOverride.baseOverride = some ovId ∧
    firstOverrideMatch ovId rrOverride.network = some forkRepo ∧
    rrOverride.BaseRepo = Except.ok (some forkRepo) :=
  ⟨rfl, by rfl, (baseRepo_override rrOverride ovId rfl).1 forkRepo (by rfl)⟩

/-- C6: `HeadRepo` returns the first non-null metadata entry, in candidate
order, with `canPush` true, and fails with `NoPushAccess` when no non-null
entry grants push access. -/
theorem headRepo_first_pushable (rr : ResolvedRemotes) :
    (∀ repo, firstPushable rr.network = some repo →
      rr.HeadRepo = Except.ok (some repo)) ∧
    (firstPushable rr.network = none →
      rr.HeadRepo = Except.error CtxError.noPushAccess) := by
  have hb : rr.HeadRepo = headRepoScan rr.network := rfl
  rw [hb, headRepoScan_eq]
  constructor
  · intro repo hm
    rw [hm]
  · intro hm
    rw [hm]

/-- Witness for C6: for candidates `[A (canPush false), B (canPush true),
C (canPush true)]`, `HeadRepo` returns `B`. -/
theorem headRepo_first_pushable_witness :
    firstPushable rrHead.network = some repoB ∧
    rrHead.HeadRepo = Except.ok (some repoB) :=
  ⟨rfl, (headRepo_first_pushable rrHead).1 repoB rfl⟩

/-- C7: whenever every stored remote has an aligned metadata entry,
`RemoteForRepo` returns the first remote, in stored order, that matches the
target either by its own literal identity or by its aligned metadata entry's
identity (the latter covers server-side redirects/renames), and fails with
`NotFound` when no remote matches. -/
theorem remoteForRepo_first_match (rr : ResolvedRemotes) (target : RepoId)
    (h : rr.remotes.length ≤ rr.network.length) :
    rr.RemoteForRepo target =
      match (rr.remotes.zip rr.network).find? (remoteMatches target) with
      | some p => Except.ok p.1
      | none => Except.error CtxError.notFound := by
  have hloop := remoteForRepoLoop_eq rr.network target rr.remotes 0 (by omega)
  simpa [ResolvedRemotes.RemoteForRepo] using hloop

/-- Witness for C7: the remote literally points to `old/name`, its metadata
entry resolves to `new/name`, and `RemoteForRepo (new/name)` returns that
remote. -/
theorem remoteForRepo_first_match_witness :
    rrRedirect.remotes.length ≤ rrRedirect.network.length ∧
    rrRedirect.RemoteForRepo targetNew = Except.ok remOld :=
  ⟨by decide,
    (remoteForRepo_first_match rrRedirect targetNew (by decide)).trans
      (by rfl)⟩

/-- C1: the claim asserts that `RemoteForRepo` on any set built by
`ResolveRemotesToRepos` — also one with more than 5 remotes, whose metadata
array is shorter than the stored remote list — always terminates with a
`Remote` or `NotFound` and never reads the metadata array out of range. The
code violates it: on the set built from six remotes (metadata array of
length 5), looking up a target that matches no remote reaches remote index 5
and reads `network.Repositories[5]`, past the end of the array — in Go a
runtime panic, modelled by `CtxError.indexOutOfRange`. -/
theorem remoteForRepo_reads_out_of_range :
    crashResolved.RemoteForRepo missingTarget =
      Except.error CtxError.indexOutOfRange := by
  rfl

/-- C8 counterexample: on the resolution of the empty Remote Set with no
override, `HeadRepo` does not fail with `NotFound` — it fails with
`NoPushAccess` — so the claimed conjunction is false at this input. -/
theorem headRepo_empty_not_notFound :
    emptyResolved.HeadRepo ≠ Except.error CtxError.notFound := by
  intro hcontra
  have h : (Except.error CtxError.noPushAccess :
      Except CtxError (Option Repository)) = Except.error CtxError.notFound :=
    hcontra
  injection h with h2
  exact CtxError.noConfusion h2

/-- C8 (amended): the resolution of an empty Remote Set with no override
yields `NotFound` from `BaseRepo` and from `RemoteForRepo` for every target,
while `HeadRepo` fails with `NoPushAccess`. -/
theorem empty_set_queries
    (lookup : List RepoId → Except String (List (Option Repository)))
    (hl : lookup [] = Except.ok []) :
    ((ResolveRemotesToRepos [] "" lookup).1.BaseRepo
        = Except.error CtxError.notFound) ∧
    ((ResolveRemotesToRepos [] "" lookup).1.HeadRepo
        = Except.error CtxError.noPushAccess) ∧
    (∀ target, (ResolveRemotesToRepos [] "" lookup).1.RemoteForRepo target
        = Except.error CtxError.notFound) := by
  have hc : lookupCandidates [] "" = [] := rfl
  have hres : ResolveRemotesToRepos [] "" lookup = (⟨none, [], []⟩, none) := by
    unfold ResolveRemotesToRepos
    rw [hc, hl]
    rfl
  rw [hres]
  exact ⟨rfl, rfl, fun target => rfl⟩

/-- Witness for C8 at the collaborator answering the empty candidate list
with the empty metadata array. -/
theorem empty_set_queries_witness :
    emptyLookup [] = Except.ok [] ∧
    ((ResolveRemotesToRepos [] "" emptyLookup).1.BaseRepo
        = Except.error CtxError.notFound ∧
     (ResolveRemotesToRepos [] "" emptyLookup).1.HeadRepo
        = Except.error CtxError.noPushAccess ∧
     ∀ target, (ResolveRemotesToRepos [] "" emptyLookup).1.RemoteForRepo target
        = Except.error CtxError.notFound) :=
  ⟨rfl, empty_set_queries emptyLookup rfl⟩

/-- When the batched lookup fails, `ResolveRemotesToRepos` returns the
partially-constructed result and that error. -/
theorem resolve_error_case (remotes : List Remote) (base : String)
    (lookup : List RepoId → Except String (List (Option Repository)))
    (e : String)
    (he : lookup (lookupCandidates remotes base) = Except.error e) :
    ResolveRemotesToRepos remotes base lookup =
      ({ baseOverride := if base != "" then some (fromFullName base) else none,
         remotes := sortedRemotes remotes,
         network := [] }, some e) := by
  unfold ResolveRemotesToRepos
  rw [he]

/-- When the batched lookup succeeds, `ResolveRemotesToRepos` returns the
completed result and no error. -/
theorem resolve_ok_case (remotes : List Remote) (base : String)
    (lookup : List RepoId → Except String (List (Option Repository)))
    (net : List (Option Repository))
    (he : lookup (lookupCandidates remotes base) = Except.ok net) :
    ResolveRemotesToRepos remotes base lookup =
      ({ baseOverride := if base != "" then some (fromFullName base) else none,
         remotes := sortedRemotes remotes,
         network := net }, none) := by
  unfold ResolveRemotesToRepos
  rw [he]

/-- C9: when the batched lookup call fails outright, `ResolveRemotesToRepos`
returns the error together with a partially-constructed Resolved Remote Set
still holding the sorted Remote Set and the override candidate (when one was
supplied) but an empty metadata array; and a lookup failure is the only
error `ResolveRemotesToRepos` can return. -/
theorem resolve_lookup_failure (remotes : List Remote) (base : String)
    (lookup : List RepoId → Except String (List (Option Repository))) :
    (∀ e, lookup (lookupCandidates remotes base) = Except.error e →
      ResolveRemotesToRepos remotes base lookup =
        ({ baseOverride :=
             if base != "" then some (fromFullName base) else none,
           remotes := sortedRemotes remotes,
           network := [] }, some e)) ∧
    (∀ rr e, ResolveRemotesToRepos remotes base lookup = (rr, some e) →
      lookup (lookupCandidates remotes base) = Except.error e) := by
  constructor
  · intro e he
    exact resolve_error_case remotes base lookup e he
  · intro rr e hres
    cases hl : lookup (lookupCandidates remotes base) with
    | error e2 =>
      rw [resolve_error_case remotes base lookup e2 hl] at hres
      have h2 : some e2 = some e := congrArg Prod.snd hres
      cases Option.some.inj h2
      rfl
    | ok net =>
      rw [resolve_ok_case remotes base lookup net hl] at hres
      have h2 : (none : Option String) = some e := congrArg Prod.snd hres
      simp at h2

/-- Witness for C9: a failing lookup on one remote with an override. -/
theorem resolve_lookup_failure_witness :
    failingLookup (lookupCandidates [remOrigin] "a/b")
      = Except.error "transport failure" ∧
    ResolveRemotesToRepos [remOrigin] "a/b" failingLookup =
      ({ baseOverride :=
           if "a/b" != "" then some (fromFullName "a/b") else none,
         remotes := sortedRemotes [remOrigin],
         network := [] }, some "transport failure") :=
  ⟨rfl, (resolve_lookup_failure [remOrigin] "a/b" failingLookup).1
      "transport failure" rfl⟩
